import Mathlib

/-!
Shallow embedding of `src/lib/rendermanager.js` (the RenderManager job
scheduler of relaxgo/generator-assets).

Modelling conventions:
* JavaScript objects used as string-keyed maps (`_pending`, `_working`,
  `_workSet`, the deferred registry) are association lists with unique keys,
  `Obj α := List (Nat × α)`; component ids and document ids are `Nat`.
* A field whose prototype default is `null` and that the constructor does not
  initialize (`_workSet`, `_changeTimer`, `_document`) is an `Option`.
* A JavaScript `throw` (including the implicit `TypeError` raised by reading a
  property of `null`/`undefined`) is `Except.error`; since every throw in the
  source happens before any mutation of the receiver, an `Except.error` result
  carries no state and the caller keeps the unmodified state.
* `Q.defer()` handles are named by a fresh counter `nextDeferredId`; the
  registry `deferreds` records each handle and whether it is still pending,
  resolved, or rejected.  `deferred.reject()` on an already settled handle is a
  no-op, as in the Q promise library.
* The asynchronous completion of a started render (the `.fail ... .finally ...`
  chain installed by `_processWorkSet`) is the separate operation
  `completeJob`, invoked as its own event when the render settles.
* `MAX_JOBS = os.cpus().length` is a parameter `maxJobs : Nat` of the
  operations that read it.
* `Object.keys` enumerates integer-like keys in ascending numeric order; the
  model picks the head of the association list.  No theorem below depends on
  the pick order: every concrete state used has at most one pending entry, and
  in every state reachable from a fresh manager the pending set is empty.
-/

set_option autoImplicit false

namespace RenderManagerSpec

/-- A layer of a document (only its id is read by the scheduler). -/
structure Layer where
  id : Nat
deriving DecidableEq

/-- A document (only its id is read by the scheduler). -/
structure Document where
  id : Nat
deriving DecidableEq

/-- A component descriptor; `extension` is the kind discriminator read by
`_renderComponent` (`"svg"` marks the vector kind). -/
structure Component where
  extension : String
deriving DecidableEq

/-- Status of a `Q.defer()` completion handle. -/
inductive DeferredState where
  | pending
  | resolved
  | rejected
deriving DecidableEq

/-- A job record as stored by `render`: the deferred handle plus the document,
layer and component of the request. -/
structure Job where
  deferredId : Nat
  document : Document
  layer : Layer
  component : Component
deriving DecidableEq

/-- A JavaScript exception: either the implicit `TypeError` from dereferencing
`null`/`undefined`, or an explicit `throw new Error(msg)`. -/
inductive JsError where
  | typeError
  | errorMessage (msg : String)
deriving DecidableEq

/-- A JavaScript object used as a map with numeric keys. -/
abbrev Obj (α : Type) := List (Nat × α)

/-- `o.hasOwnProperty(k)` for an object modelled as an association list. -/
def hasKey {α : Type} (o : Obj α) (k : Nat) : Bool :=
  o.any (fun p => p.1 == k)

/-- `o[k]` read as an `Option` (JavaScript yields `undefined` when absent). -/
def lookupKey {α : Type} (o : Obj α) (k : Nat) : Option α :=
  (o.find? (fun p => p.1 == k)).map (fun p => p.2)

/-- `delete o[k]`. -/
def removeKey {α : Type} (o : Obj α) (k : Nat) : Obj α :=
  o.filter (fun p => p.1 != k)

/-- `o[k] = v`: overwrite in place when the key exists, append otherwise. -/
def setKey {α : Type} (o : Obj α) (k : Nat) (v : α) : Obj α :=
  if hasKey o k then o.map (fun p => if p.1 == k then (k, v) else p)
  else o ++ [(k, v)]

/-- `var CHANGE_DELAY = 1000` (milliseconds of the debounce quiet period). -/
def CHANGE_DELAY : Nat := 1000

/-- The mutable state of one `RenderManager` instance. -/
structure RM where
  /-- `this._pending`: set by the constructor to `{}`. -/
  pending : Obj Job
  /-- `this._working`: set by the constructor to `{}`. -/
  working : Obj Job
  /-- `this._workSet`: prototype default `null`; assigned only by `finish`. -/
  workSet : Option (Obj Job)
  /-- `this._changeTimer`: `none` when no timer is armed, `some d` when a
  timer armed to fire at absolute time `d` is outstanding. -/
  changeTimer : Option Nat
  /-- `this._document`: prototype default `null`; never assigned in the file. -/
  document : Option Nat
  /-- States of all deferred handles created so far, keyed by handle id. -/
  deferreds : List (Nat × DeferredState)
  /-- Fresh-name supply for deferred handles. -/
  nextDeferredId : Nat
  /-- Component ids whose `_renderComponent` call has been begun, in order. -/
  started : List Nat
deriving DecidableEq

/-- The constructor `new RenderManager(generator)`: initializes `_pending` and
`_working` to empty objects and leaves `_workSet`, `_changeTimer` and
`_document` at their prototype default `null`. -/
def RenderManager.new : RM :=
  { pending := []
    working := []
    workSet := none
    changeTimer := none
    document := none
    deferreds := []
    nextDeferredId := 0
    started := [] }

/-- Settle a deferred handle to `rejected` unless it is already settled
(`deferred.reject()` in Q is a no-op on a settled deferred). -/
def rejectDeferred (ds : List (Nat × DeferredState)) (did : Nat) :
    List (Nat × DeferredState) :=
  ds.map (fun p =>
    if p.1 == did then
      match p.2 with
      | DeferredState.pending => (p.1, DeferredState.rejected)
      | st => (p.1, st)
    else p)

/-- The `if (!this._changeTimer) { this._changeTimer = setTimeout(..., CHANGE_DELAY); }`
block of `render`: when no timer is armed, arm one to fire `CHANGE_DELAY`
after `now`; when a timer is already armed, do nothing. -/
def armTimer (s : RM) (now : Nat) : RM :=
  match s.changeTimer with
  | none => { s with changeTimer := some (now + CHANGE_DELAY) }
  | some _ => s

/-- `RenderManager.prototype.render(document, layer, component, componentId)`
at current time `now`.  Reads `this._workSet.hasOwnProperty(componentId)`
first: when `_workSet` is still the prototype default `null` this is the
implicit `TypeError`.  When the id is already present it is the explicit
`throw new Error("Render already pending for component: %d", componentId)`
(the second argument is ignored by the `Error` constructor, so the message
keeps the literal `%d`).  Otherwise a fresh deferred is created, the job is
recorded in `_workSet`, and if no change timer is armed one is armed to fire
`CHANGE_DELAY` from `now`.  Returns the new state and the id of the deferred
whose promise is handed back to the caller. -/
def render (s : RM) (now : Nat) (doc : Document) (layer : Layer)
    (comp : Component) (cid : Nat) : Except JsError (RM × Nat) :=
  match s.workSet with
  | none => Except.error JsError.typeError
  | some ws =>
    if hasKey ws cid then
      Except.error (JsError.errorMessage ("Render already pending for component: %d"))
    else
      let did := s.nextDeferredId
      let job : Job := { deferredId := did, document := doc, layer := layer, component := comp }
      let s1 : RM :=
        { s with
          workSet := some (setKey ws cid job)
          deferreds := s.deferreds ++ [(did, DeferredState.pending)]
          nextDeferredId := did + 1 }
      Except.ok (armTimer s1 now, did)

/-- The body of `RenderManager.prototype._processWorkSet`, with explicit fuel
(the recursion consumes one pending entry per step, so any fuel of at least
`pending.length + 1` reaches a fixed point).  It reads
`keys = Object.keys(this._pending)`; if `keys.length >= MAX_JOBS` it returns
at once; if a pending entry exists it deletes it from `_pending`, stores it in
`_working`, begins its render (recorded in `started`), and recurses; otherwise
it logs quiescence and clears `this._changeTimer`.  The asynchronous
`.fail`/`.finally` continuation of the started render is `completeJob`. -/
def processWorkSetAux (maxJobs : Nat) : Nat → RM → RM
  | 0, s => s
  | fuel + 1, s =>
    if s.pending.length ≥ maxJobs then s
    else
      match s.pending with
      | [] => { s with changeTimer := none }
      | (cid, job) :: rest =>
        processWorkSetAux maxJobs fuel
          { s with
            pending := rest.filter (fun p => p.1 != cid)
            working := setKey s.working cid job
            started := s.started ++ [cid] }

/-- `RenderManager.prototype._processWorkSet()`. -/
def processWorkSet (maxJobs : Nat) (s : RM) : RM :=
  processWorkSetAux maxJobs (s.pending.length + 1) s

/-- The continuation installed on a started render:
`.fail(function (err) { console.warn(...) })` only logs, and
`.finally(function () { delete this._working[componentId]; this._processWorkSet(); })`
runs for success and failure alike.  `succeeded` records the outcome of the
render; the body does not read it (nothing resolves or rejects the deferred
of the job here). -/
def completeJob (maxJobs : Nat) (s : RM) (cid : Nat) (succeeded : Bool) : RM :=
  processWorkSet maxJobs { s with working := removeKey s.working cid }

/-- `RenderManager.prototype.cancel(componentId)`: chooses `set = _pending`
when the id is pending, else `set = _working` when the id is working; when
neither holds, `set` stays `undefined` and `set[componentId]` raises the
implicit `TypeError`.  On success the job is deleted from the chosen set and
its deferred is rejected. -/
def cancel (s : RM) (cid : Nat) : Except JsError RM :=
  match lookupKey s.pending cid with
  | some job =>
    Except.ok
      { s with
        pending := removeKey s.pending cid
        deferreds := rejectDeferred s.deferreds job.deferredId }
  | none =>
    match lookupKey s.working cid with
    | some job =>
      Except.ok
        { s with
          working := removeKey s.working cid
          deferreds := rejectDeferred s.deferreds job.deferredId }
    | none => Except.error JsError.typeError

/-- `RenderManager.prototype.finish()`: first assigns `this._workSet = {}`,
then calls `this._document.off("change")`.  Nothing in the file ever assigns
`_document`, so on every instance produced by this file the second statement
dereferences `null` and raises a `TypeError` after the assignment to
`_workSet` has already taken effect. -/
def finish (s : RM) : RM × Except JsError Unit :=
  let s1 : RM := { s with workSet := some [] }
  match s1.document with
  | none => (s1, Except.error JsError.typeError)
  | some _ => (s1, Except.ok ())

/-- One external call made on the render path of a promoted job. -/
inductive RendererCall where
  | getPixmap (documentId : Nat) (layerId : Nat) (boundsOnly : Bool)
  | pixmapRender (documentId : Nat) (layerId : Nat) (exactBounds : Option Nat)
deriving DecidableEq

/-- `RenderManager.prototype._renderComponent(document, layer, component)` as
the sequence of external calls it makes.  `providerBounds` stands for the
opaque `pixmapInfo.bounds` value the generator resolves the bounds-only
`getPixmap` query with.  When `component.extension === "svg"` the pixmap
renderer for the document is called directly with no bounds argument;
otherwise `generator.getPixmap(document.id, layer.id, { boundsOnly: true })`
runs first and its bounds are passed as `exactBounds` to the pixmap
renderer. -/
def renderComponentCalls (doc : Document) (layer : Layer) (comp : Component)
    (providerBounds : Nat) : List RendererCall :=
  if comp.extension = "svg" then
    [RendererCall.pixmapRender doc.id layer.id none]
  else
    [RendererCall.getPixmap doc.id layer.id true,
     RendererCall.pixmapRender doc.id layer.id (some providerBounds)]

/-- An externally observable event applied to a manager, stamped with the
absolute time at which it occurs. -/
inductive Event where
  | render (t : Nat) (doc : Document) (layer : Layer) (comp : Component) (cid : Nat)
  | timerFire (t : Nat)
  | complete (t : Nat) (cid : Nat) (succeeded : Bool)
  | cancel (t : Nat) (cid : Nat)
  | finish (t : Nat)
deriving DecidableEq

/-- The timestamp of an event. -/
def Event.time : Event → Nat
  | Event.render t _ _ _ _ => t
  | Event.timerFire t => t
  | Event.complete t _ _ => t
  | Event.cancel t _ => t
  | Event.finish t => t

/-- Whether an event is the `finish` call. -/
def Event.isFinish : Event → Bool
  | Event.finish _ => true
  | _ => false

/-- A manager state together with the current time. -/
structure World where
  rm : RM
  now : Nat
deriving DecidableEq

/-- A freshly constructed manager at time `0`. -/
def World.fresh : World :=
  { rm := RenderManager.new, now := 0 }

/-- Apply one event.  An operation that throws leaves the manager state
unchanged (every throw in the source precedes all mutations of the fields the
model tracks, except `finish`, whose `_workSet` assignment precedes its
throw and is therefore applied). -/
def applyEvent (maxJobs : Nat) (w : World) (e : Event) : World :=
  match e with
  | Event.render t doc layer comp cid =>
    match render w.rm t doc layer comp cid with
    | Except.ok (s, _) => { rm := s, now := t }
    | Except.error _ => { rm := w.rm, now := t }
  | Event.timerFire t => { rm := processWorkSet maxJobs w.rm, now := t }
  | Event.complete t cid succeeded =>
    { rm := completeJob maxJobs w.rm cid succeeded, now := t }
  | Event.cancel t cid =>
    match cancel w.rm cid with
    | Except.ok s => { rm := s, now := t }
    | Except.error _ => { rm := w.rm, now := t }
  | Event.finish t => { rm := (finish w.rm).1, now := t }

/-- When an event may occur: time is nondecreasing; the change timer fires
only while armed and no earlier than its deadline (`setTimeout` never runs
its callback before the requested delay); a completion settles only a render
that was actually begun. -/
def validEvent (w : World) (e : Event) : Bool :=
  decide (w.now ≤ e.time) &&
    match e with
    | Event.timerFire t =>
      match w.rm.changeTimer with
      | some d => decide (d ≤ t)
      | none => false
    | Event.complete _ cid _ => w.rm.started.contains cid
    | _ => true

/-- Fold a list of events over a world. -/
def runEvents (maxJobs : Nat) (w : World) (es : List Event) : World :=
  es.foldl (applyEvent maxJobs) w

/-- Executions: every event valid when it occurs. -/
inductive Steps (maxJobs : Nat) : World → List Event → World → Prop
  | nil (w : World) : Steps maxJobs w [] w
  | cons {w : World} {e : Event} {es : List Event} {w' : World}
      (hv : validEvent w e = true)
      (hs : Steps maxJobs (applyEvent maxJobs w e) es w') :
      Steps maxJobs w (e :: es) w'

/-! ### Concrete scenario data

Fixed document, layer, component and job values used by the concrete
executions below. -/

/-- A sample document. -/
def sampleDoc : Document := ⟨1⟩

/-- A sample layer. -/
def sampleLayer : Layer := ⟨10⟩

/-- A sample non-vector component (extension distinct from `"svg"`). -/
def sampleComp : Component := ⟨"png"⟩

/-- A sample job record. -/
def sampleJob : Job :=
  { deferredId := 0, document := sampleDoc, layer := sampleLayer, component := sampleComp }

/-- The scenario of the specification for the dispatcher: call `finish` (the
only operation that initializes `_workSet`, so that `render` can run at all),
submit components `1`, `2`, `3` with distinct ids, and let the quiet period
elapse so the change timer fires, with a concurrency cap of `2`. -/
def submitThreeTrace : List Event :=
  [Event.finish 0,
   Event.render 0 sampleDoc sampleLayer sampleComp 1,
   Event.render 1 sampleDoc sampleLayer sampleComp 2,
   Event.render 2 sampleDoc sampleLayer sampleComp 3,
   Event.timerFire 1000]

/-- A manager state holding two running jobs and one queued job, with the
concurrency cap `2` already saturated. -/
def overCapState : RM :=
  { RenderManager.new with
    working := [(1, sampleJob), (2, sampleJob)]
    pending := [(3, sampleJob)] }

/-- A manager state holding two queued jobs and nothing running. -/
def queueAtCapState : RM :=
  { RenderManager.new with pending := [(1, sampleJob), (2, sampleJob)] }

/-- `finish` followed by a single submission of component `9`. -/
def submitOneTrace : List Event :=
  [Event.finish 0, Event.render 0 sampleDoc sampleLayer sampleComp 9]

/-- The manager state after `finish` and one submission of component `9`. -/
def submitOneState : RM := (runEvents 2 World.fresh submitOneTrace).rm

/-- A manager state with an initialized work set already tracking component
`5`. -/
def trackingFiveState : RM :=
  { RenderManager.new with workSet := some [(5, sampleJob)] }

/-- A manager state whose work set is initialized (empty) and whose change
timer is armed for time `42`. -/
def armedState : RM :=
  { RenderManager.new with workSet := some [], changeTimer := some 42 }

/-- A manager state with job `1` running and job `2` queued, as in the
sibling-promotion scenario of the specification. -/
def siblingState : RM :=
  { RenderManager.new with working := [(1, sampleJob)], pending := [(2, sampleJob)] }

/-- A manager state with job `1` queued and nothing else tracked. -/
def onePendingState : RM :=
  { RenderManager.new with pending := [(1, sampleJob)] }

/-- `finish` followed by a submission of component `1` at time `5`. -/
def armAtFiveTrace : List Event :=
  [Event.finish 0, Event.render 5 sampleDoc sampleLayer sampleComp 1]

/-- The state and deferred id produced by submitting component `3` at time
`0` to a manager with an initialized, empty work set and an armed timer. -/
def renderedPair : RM × Nat :=
  (render armedState 0 sampleDoc sampleLayer sampleComp 3).toOption.getD
    (RenderManager.new, 0)

/-- The state and deferred id produced by submitting component `1` at time
`7` to a manager with an initialized, empty work set and an armed timer. -/
def renderedArmedPair : RM × Nat :=
  (render armedState 7 sampleDoc sampleLayer sampleComp 1).toOption.getD
    (RenderManager.new, 0)


/-! ### Helper lemmas -/

/-- Filtering an object cannot introduce a key. -/
theorem hasKey_filter_false {α : Type} {o : Obj α} {k : Nat} (p : Nat × α → Bool)
    (h : hasKey o k = false) : hasKey (o.filter p) k = false := by
  simp only [hasKey, List.any_eq_false] at h ⊢
  intro x hx
  exact h x (List.mem_of_mem_filter hx)

/-- Writing key `c` cannot introduce a different key `k`. -/
theorem hasKey_setKey_false {α : Type} {o : Obj α} {c k : Nat} {v : α}
    (hne : k ≠ c) (h : hasKey o k = false) : hasKey (setKey o c v) k = false := by
  have hck : (c == k) = false := by
    simp only [beq_eq_false_iff_ne, ne_eq]
    exact fun hc => hne hc.symm
  unfold setKey
  split
  · simp only [hasKey, List.any_eq_false] at h ⊢
    intro x hx
    obtain ⟨y, hy, hxy⟩ := List.mem_map.mp hx
    by_cases hyc : (y.1 == c) = true
    · rw [if_pos hyc] at hxy
      subst hxy
      simp [hck]
    · rw [if_neg hyc] at hxy
      subst hxy
      exact h y hy
  · simp only [hasKey, List.any_append, Bool.or_eq_false_iff]
    refine ⟨h, ?_⟩
    simp [hck]

/-- Deleting key `k` removes it. -/
theorem hasKey_removeKey_self {α : Type} (o : Obj α) (k : Nat) :
    hasKey (removeKey o k) k = false := by
  simp only [hasKey, removeKey, List.any_eq_false]
  intro x hx
  have hpx := List.of_mem_filter hx
  simpa using hpx

/-- A key absent from an object looks up to nothing. -/
theorem lookupKey_eq_none {α : Type} {o : Obj α} {k : Nat}
    (h : hasKey o k = false) : lookupKey o k = none := by
  simp only [hasKey, List.any_eq_false] at h
  unfold lookupKey
  rw [List.find?_eq_none.mpr h]
  rfl

/-- The drain only ever writes `none` to the change timer: an armed result
means the timer was already armed before the drain, at the same deadline. -/
theorem processWorkSetAux_changeTimer {m : Nat} :
    ∀ (fuel : Nat) (s : RM) (d : Nat),
      (processWorkSetAux m fuel s).changeTimer = some d → s.changeTimer = some d := by
  intro fuel
  induction fuel with
  | zero => intro s d h; exact h
  | succ n ih =>
    intro s d h
    unfold processWorkSetAux at h
    split at h
    · exact h
    · split at h
      · simp at h
      · have h2 := ih _ d h
        exact h2

/-- The drain never touches the work set, the deferred registry, the document
field or the deferred-name supply. -/
theorem processWorkSetAux_frame {m : Nat} :
    ∀ (fuel : Nat) (s : RM),
      (processWorkSetAux m fuel s).workSet = s.workSet ∧
      (processWorkSetAux m fuel s).deferreds = s.deferreds ∧
      (processWorkSetAux m fuel s).document = s.document ∧
      (processWorkSetAux m fuel s).nextDeferredId = s.nextDeferredId := by
  intro fuel
  induction fuel with
  | zero => intro s; exact ⟨rfl, rfl, rfl, rfl⟩
  | succ n ih =>
    intro s
    unfold processWorkSetAux
    split
    · exact ⟨rfl, rfl, rfl, rfl⟩
    · split
      · exact ⟨rfl, rfl, rfl, rfl⟩
      · exact ih _

/-- The drain never moves a job into the working set whose id is neither
already working nor pending. -/
theorem processWorkSetAux_not_working {m : Nat} :
    ∀ (fuel : Nat) (s : RM) (k : Nat),
      hasKey s.pending k = false → hasKey s.working k = false →
      hasKey (processWorkSetAux m fuel s).working k = false := by
  intro fuel
  induction fuel with
  | zero => intro s k _ hw; exact hw
  | succ n ih =>
    intro s k hp hw
    unfold processWorkSetAux
    split
    · exact hw
    · split
      · exact hw
      next cid job rest heq =>
        rw [heq] at hp
        simp only [hasKey, List.any_cons, Bool.or_eq_false_iff] at hp
        obtain ⟨hck, hrest⟩ := hp
        have hne : k ≠ cid := by
          intro hkc
          subst hkc
          simp at hck
        refine ih _ k ?_ ?_
        · exact hasKey_filter_false _ hrest
        · exact hasKey_setKey_false hne hw

/-- Draining a state with no pending jobs either returns it unchanged or only
clears the change timer. -/
theorem processWorkSet_pending_nil {m : Nat} {s : RM} (h : s.pending = []) :
    processWorkSet m s = s ∨ processWorkSet m s = { s with changeTimer := none } := by
  unfold processWorkSet processWorkSetAux
  rw [h]
  split
  · exact Or.inl rfl
  · exact Or.inr rfl

/-- Component version of `processWorkSet_pending_nil`. -/
theorem processWorkSet_pending_nil_frame {m : Nat} {s : RM} (h : s.pending = []) :
    (processWorkSet m s).pending = s.pending ∧
    (processWorkSet m s).working = s.working ∧
    (processWorkSet m s).started = s.started ∧
    (processWorkSet m s).workSet = s.workSet ∧
    (processWorkSet m s).deferreds = s.deferreds := by
  rcases processWorkSet_pending_nil (m := m) h with h2 | h2 <;> rw [h2] <;>
    exact ⟨rfl, rfl, rfl, rfl, rfl⟩

/-- What a successful `render` call does to the state: the pending, working
and started collections are untouched, the new deferred is recorded pending,
and the timer is armed exactly when it was not armed before. -/
theorem render_ok_spec {s : RM} {now : Nat} {doc : Document} {layer : Layer}
    {comp : Component} {cid : Nat} {s' : RM} {did : Nat}
    (h : render s now doc layer comp cid = Except.ok (s', did)) :
    s'.pending = s.pending ∧ s'.working = s.working ∧ s'.started = s.started ∧
    (did, DeferredState.pending) ∈ s'.deferreds ∧
    (∀ d, s.changeTimer = some d → s'.changeTimer = some d) ∧
    (s.changeTimer = none → s'.changeTimer = some (now + CHANGE_DELAY)) := by
  unfold render at h
  split at h
  · simp at h
  next ws hws =>
    split at h
    · simp at h
    · simp only [Except.ok.injEq, Prod.mk.injEq] at h
      obtain ⟨hs', hdid⟩ := h
      subst hdid
      subst hs'
      unfold armTimer
      split
      next hct =>
        have hnone : s.changeTimer = none := hct
        refine ⟨rfl, rfl, rfl, by simp, ?_, fun _ => rfl⟩
        intro d hd
        rw [hnone] at hd
        exact Option.noConfusion hd
      next d0 hct =>
        have hsome : s.changeTimer = some d0 := hct
        refine ⟨rfl, rfl, rfl, by simp, ?_, ?_⟩
        · intro d hd
          rw [hsome] at hd
          injection hd with h2
          rw [← h2]
          exact hsome
        · intro hnone
          rw [hsome] at hnone
          exact Option.noConfusion hnone

/-- `render` on a manager whose work set is still `null` raises the implicit
`TypeError` before any mutation. -/
theorem render_workSet_none {s : RM} {now : Nat} {doc : Document} {layer : Layer}
    {comp : Component} {cid : Nat} (h : s.workSet = none) :
    render s now doc layer comp cid = Except.error JsError.typeError := by
  unfold render
  rw [h]

/-- A successful `cancel` touches only the pending or working set and the
deferred registry. -/
theorem cancel_ok_frame {s : RM} {cid : Nat} {s' : RM}
    (h : cancel s cid = Except.ok s') :
    s'.workSet = s.workSet ∧ s'.changeTimer = s.changeTimer ∧
    s'.started = s.started := by
  unfold cancel at h
  split at h
  · simp only [Except.ok.injEq] at h
    subst h
    exact ⟨rfl, rfl, rfl⟩
  · split at h
    · simp only [Except.ok.injEq] at h
      subst h
      exact ⟨rfl, rfl, rfl⟩
    · simp at h

/-- `cancel` for an id tracked in neither the pending nor the working set
leaves the `set` variable `undefined` and raises the implicit `TypeError`. -/
theorem cancel_not_found {s : RM} {cid : Nat}
    (hp : lookupKey s.pending cid = none) (hw : lookupKey s.working cid = none) :
    cancel s cid = Except.error JsError.typeError := by
  unfold cancel
  rw [hp, hw]

/-- Shape of a `render` event: the manager either keeps its state (the call
threw) or moves to the success state of the call. -/
theorem applyEvent_render_rm (m : Nat) (w : World) (t : Nat) (doc : Document)
    (layer : Layer) (comp : Component) (cid : Nat) :
    (applyEvent m w (Event.render t doc layer comp cid)).rm = w.rm ∨
    ∃ s' did, render w.rm t doc layer comp cid = Except.ok (s', did) ∧
      (applyEvent m w (Event.render t doc layer comp cid)).rm = s' := by
  cases hres : render w.rm t doc layer comp cid with
  | ok p =>
    obtain ⟨s', did⟩ := p
    right
    refine ⟨s', did, rfl, ?_⟩
    simp only [applyEvent]
    rw [hres]
  | error err =>
    left
    simp only [applyEvent]
    rw [hres]

/-- Shape of a `cancel` event: the manager either keeps its state (the call
threw) or moves to the success state of the call. -/
theorem applyEvent_cancel_rm (m : Nat) (w : World) (t : Nat) (cid : Nat) :
    (applyEvent m w (Event.cancel t cid)).rm = w.rm ∨
    ∃ s', cancel w.rm cid = Except.ok s' ∧
      (applyEvent m w (Event.cancel t cid)).rm = s' := by
  cases hres : cancel w.rm cid with
  | ok s' =>
    right
    refine ⟨s', rfl, ?_⟩
    simp only [applyEvent]
    rw [hres]
  | error err =>
    left
    simp only [applyEvent]
    rw [hres]

/-- A timer-fire event runs the drain. -/
theorem applyEvent_timerFire_rm (m : Nat) (w : World) (t : Nat) :
    (applyEvent m w (Event.timerFire t)).rm = processWorkSet m w.rm := rfl

/-- A completion event runs the cleanup continuation. -/
theorem applyEvent_complete_rm (m : Nat) (w : World) (t : Nat) (cid : Nat) (b : Bool) :
    (applyEvent m w (Event.complete t cid b)).rm =
      processWorkSet m { w.rm with working := removeKey w.rm.working cid } := rfl

/-- A finish event only initializes the work set. -/
theorem applyEvent_finish_rm (m : Nat) (w : World) (t : Nat) :
    (applyEvent m w (Event.finish t)).rm = { w.rm with workSet := some [] } := by
  show (finish w.rm).1 = _
  unfold finish
  dsimp only
  split
  · rfl
  · rfl

/-- Invariance along executions: a property preserved by every valid event
drawn from a class `Q` of events holds at the end of any execution made of
`Q` events on which it held at the start. -/
theorem steps_invariant_of {m : Nat} (P : World → Prop) (Q : Event → Prop)
    (hstep : ∀ (w : World) (e : Event),
      validEvent w e = true → Q e → P w → P (applyEvent m w e)) :
    ∀ {w : World} {es : List Event} {w' : World},
      Steps m w es w' → (∀ e ∈ es, Q e) → P w → P w' := by
  intro w es w' h
  induction h with
  | nil => intro _ hw; exact hw
  | cons hv hs ih =>
    intro hq hw
    exact ih (fun e he => hq e (List.mem_cons_of_mem _ he))
      (hstep _ _ hv (hq _ (List.mem_cons_self _ _)) hw)

/-- Every event sets the clock to its own timestamp. -/
theorem applyEvent_now (m : Nat) (w : World) (e : Event) :
    (applyEvent m w e).now = e.time := by
  cases e with
  | render t doc layer comp cid =>
    simp only [applyEvent]
    split
    · rfl
    · rfl
  | timerFire t => rfl
  | complete t cid b => rfl
  | cancel t cid =>
    simp only [applyEvent]
    split
    · rfl
    · rfl
  | finish t => rfl

/-- A valid event never moves the clock backwards. -/
theorem validEvent_time_le {w : World} {e : Event} (h : validEvent w e = true) :
    w.now ≤ e.time := by
  unfold validEvent at h
  simp only [Bool.and_eq_true, decide_eq_true_eq] at h
  exact h.1

/-- A valid timer firing requires an armed timer whose deadline has passed. -/
theorem validEvent_timerFire {w : World} {t : Nat}
    (h : validEvent w (Event.timerFire t) = true) :
    ∃ d, w.rm.changeTimer = some d ∧ d ≤ t := by
  unfold validEvent at h
  simp only [Bool.and_eq_true] at h
  obtain ⟨-, h2⟩ := h
  cases hct : w.rm.changeTimer with
  | none => rw [hct] at h2; simp at h2
  | some d =>
    rw [hct] at h2
    simp only [decide_eq_true_eq] at h2
    exact ⟨d, rfl, h2⟩

/-- In every state reachable from a fresh manager, the pending set, the
working set and the list of begun renders are empty: no operation of the file
ever inserts into `_pending`, so the drain never finds work to promote. -/
theorem steps_empty {m : Nat} {es : List Event} {w : World}
    (h : Steps m World.fresh es w) :
    w.rm.pending = [] ∧ w.rm.working = [] ∧ w.rm.started = [] := by
  refine steps_invariant_of
    (fun w => w.rm.pending = [] ∧ w.rm.working = [] ∧ w.rm.started = [])
    (fun _ => True) ?_ h (fun _ _ => trivial) ⟨rfl, rfl, rfl⟩
  intro w e _ _ hP
  obtain ⟨hp, hw, hs⟩ := hP
  cases e with
  | render t doc layer comp cid =>
    rcases applyEvent_render_rm m w t doc layer comp cid with heq | ⟨s', did, hok, heq⟩
    · rw [heq]; exact ⟨hp, hw, hs⟩
    · rw [heq]
      have hf := render_ok_spec hok
      exact ⟨hf.1.trans hp, hf.2.1.trans hw, hf.2.2.1.trans hs⟩
  | timerFire t =>
    rw [applyEvent_timerFire_rm]
    have h4 := processWorkSet_pending_nil_frame (m := m) hp
    exact ⟨h4.1.trans hp, h4.2.1.trans hw, h4.2.2.1.trans hs⟩
  | complete t cid b =>
    rw [applyEvent_complete_rm]
    have hp0 : ({ w.rm with working := removeKey w.rm.working cid } : RM).pending = [] := hp
    have h4 := processWorkSet_pending_nil_frame (m := m) hp0
    refine ⟨h4.1.trans hp0, ?_, h4.2.2.1.trans hs⟩
    rw [h4.2.1]
    show removeKey w.rm.working cid = []
    rw [hw]
    rfl
  | cancel t cid =>
    rcases applyEvent_cancel_rm m w t cid with heq | ⟨s', hok, heq⟩
    · rw [heq]; exact ⟨hp, hw, hs⟩
    · exfalso
      have hpn : lookupKey w.rm.pending cid = none := by rw [hp]; rfl
      have hwn : lookupKey w.rm.working cid = none := by rw [hw]; rfl
      rw [cancel_not_found hpn hwn] at hok
      exact Except.noConfusion hok
  | finish t =>
    rw [applyEvent_finish_rm]
    exact ⟨hp, hw, hs⟩

/-- In every state reachable from a fresh manager, an armed change timer has
a deadline exactly `CHANGE_DELAY` past some instant no later than now (the
instant at which the timer was armed). -/
theorem steps_timerBound {m : Nat} {es : List Event} {w : World}
    (h : Steps m World.fresh es w) :
    ∀ d, w.rm.changeTimer = some d → ∃ t0, t0 ≤ w.now ∧ d = t0 + CHANGE_DELAY := by
  refine steps_invariant_of
    (fun w => ∀ d, w.rm.changeTimer = some d → ∃ t0, t0 ≤ w.now ∧ d = t0 + CHANGE_DELAY)
    (fun _ => True) ?_ h (fun _ _ => trivial) ?_
  · intro w e hv _ hP
    have htime := validEvent_time_le hv
    intro d hd
    rw [applyEvent_now m w e]
    cases e with
    | render t doc layer comp cid =>
      rcases applyEvent_render_rm m w t doc layer comp cid with heq | ⟨s', did, hok, heq⟩
      · rw [heq] at hd
        obtain ⟨t0, ht0, hde⟩ := hP d hd
        exact ⟨t0, le_trans ht0 htime, hde⟩
      · rw [heq] at hd
        have hf := render_ok_spec hok
        cases hct : w.rm.changeTimer with
        | none =>
          rw [hf.2.2.2.2.2 hct] at hd
          injection hd with h2
          exact ⟨t, le_refl _, h2.symm⟩
        | some d0 =>
          rw [hf.2.2.2.2.1 d0 hct] at hd
          injection hd with h2
          subst h2
          obtain ⟨t0, ht0, hde⟩ := hP _ hct
          exact ⟨t0, le_trans ht0 htime, hde⟩
    | timerFire t =>
      rw [applyEvent_timerFire_rm] at hd
      have hpre := processWorkSetAux_changeTimer _ _ _ hd
      obtain ⟨t0, ht0, hde⟩ := hP d hpre
      exact ⟨t0, le_trans ht0 htime, hde⟩
    | complete t cid b =>
      rw [applyEvent_complete_rm] at hd
      have hpre := processWorkSetAux_changeTimer _ _ _ hd
      obtain ⟨t0, ht0, hde⟩ := hP d hpre
      exact ⟨t0, le_trans ht0 htime, hde⟩
    | cancel t cid =>
      rcases applyEvent_cancel_rm m w t cid with heq | ⟨s', hok, heq⟩
      · rw [heq] at hd
        obtain ⟨t0, ht0, hde⟩ := hP d hd
        exact ⟨t0, le_trans ht0 htime, hde⟩
      · rw [heq] at hd
        rw [(cancel_ok_frame hok).2.1] at hd
        obtain ⟨t0, ht0, hde⟩ := hP d hd
        exact ⟨t0, le_trans ht0 htime, hde⟩
    | finish t =>
      rw [applyEvent_finish_rm] at hd
      obtain ⟨t0, ht0, hde⟩ := hP d hd
      exact ⟨t0, le_trans ht0 htime, hde⟩
  · intro d hd
    exact absurd hd (by simp [World.fresh, RenderManager.new])

/-- In every state reached without calling `finish`, the work set is still
the prototype default `null`. -/
theorem steps_workSet_none {m : Nat} {es : List Event} {w : World}
    (h : Steps m World.fresh es w) (hnf : ∀ e ∈ es, e.isFinish = false) :
    w.rm.workSet = none := by
  refine steps_invariant_of (fun w => w.rm.workSet = none)
    (fun e => e.isFinish = false) ?_ h hnf rfl
  intro w e _ hq hP
  cases e with
  | render t doc layer comp cid =>
    rcases applyEvent_render_rm m w t doc layer comp cid with heq | ⟨s', did, hok, heq⟩
    · rw [heq]; exact hP
    · exfalso
      rw [render_workSet_none hP] at hok
      exact Except.noConfusion hok
  | timerFire t =>
    rw [applyEvent_timerFire_rm]
    exact ((processWorkSetAux_frame _ _).1).trans hP
  | complete t cid b =>
    rw [applyEvent_complete_rm]
    exact ((processWorkSetAux_frame _ _).1).trans hP
  | cancel t cid =>
    rcases applyEvent_cancel_rm m w t cid with heq | ⟨s', hok, heq⟩
    · rw [heq]; exact hP
    · rw [heq]
      exact (cancel_ok_frame hok).1.trans hP
  | finish t => simp [Event.isFinish] at hq

/-! ### Claim theorems -/

/-- C1: the claim says that after submitting components with ids 1, 2, 3
(distinct, with a concurrency cap of 2) and letting the quiet period elapse,
the drain promotes jobs 1 and 2 to Running and leaves 3 Queued.  Evaluating
the code on exactly that execution shows otherwise: the submissions are
recorded in `_workSet`, but the drain reads the disjoint `_pending`
collection, finds it empty, logs quiescence and clears the timer; no job is
ever promoted to the working set and no render is begun. -/
theorem drain_never_promotes_submissions :
    Steps 2 World.fresh submitThreeTrace (runEvents 2 World.fresh submitThreeTrace) ∧
    ((runEvents 2 World.fresh submitThreeTrace).rm.workSet.getD []).map Prod.fst = [1, 2, 3] ∧
    (runEvents 2 World.fresh submitThreeTrace).rm.working = [] ∧
    (runEvents 2 World.fresh submitThreeTrace).rm.started = [] ∧
    (runEvents 2 World.fresh submitThreeTrace).rm.pending = [] ∧
    (runEvents 2 World.fresh submitThreeTrace).rm.changeTimer = none :=
  ⟨Steps.cons (by decide) (Steps.cons (by decide) (Steps.cons (by decide)
      (Steps.cons (by decide) (Steps.cons (by decide) (Steps.nil _))))),
   by decide, by decide, by decide, by decide, by decide⟩

/-- C2: on a freshly constructed manager `_workSet` is the prototype default
`null`; every `render` call on a state whose work set is `null` throws a
`TypeError` before recording any job; and along any execution that never
calls `finish` (the only operation that initializes `_workSet`), the work set
stays `null`, so submission can never succeed on such an instance. -/
theorem render_throws_before_finish :
    RenderManager.new.workSet = none ∧
    (∀ (s : RM) (now : Nat) (doc : Document) (layer : Layer) (comp : Component)
        (cid : Nat), s.workSet = none →
        render s now doc layer comp cid = Except.error JsError.typeError) ∧
    (∀ (m : Nat) (es : List Event) (w : World),
        Steps m World.fresh es w → (∀ e ∈ es, e.isFinish = false) →
        w.rm.workSet = none ∧
        ∀ (now : Nat) (doc : Document) (layer : Layer) (comp : Component) (cid : Nat),
          render w.rm now doc layer comp cid = Except.error JsError.typeError) := by
  refine ⟨rfl, ?_, ?_⟩
  · intro s now doc layer comp cid h
    exact render_workSet_none h
  · intro m es w hsteps hnf
    have hws := steps_workSet_none hsteps hnf
    exact ⟨hws, fun now doc layer comp cid => render_workSet_none hws⟩

/-- C2 witness: a concrete finish-free execution (one attempted submission)
after which the work set is still `null` and a further submission throws. -/
theorem render_throws_before_finish_witness :
    (runEvents 3 World.fresh [Event.render 0 sampleDoc sampleLayer sampleComp 7]).rm.workSet
        = none ∧
    render (runEvents 3 World.fresh [Event.render 0 sampleDoc sampleLayer sampleComp 7]).rm
        1 sampleDoc sampleLayer sampleComp 7 = Except.error JsError.typeError := by
  have h := render_throws_before_finish.2.2 3
    [Event.render 0 sampleDoc sampleLayer sampleComp 7]
    (runEvents 3 World.fresh [Event.render 0 sampleDoc sampleLayer sampleComp 7])
    (Steps.cons (by decide) (Steps.nil _)) (by decide)
  exact ⟨h.1, h.2 1 sampleDoc sampleLayer sampleComp 7⟩

/-- C3: the claim says a job run to completion has its handle resolved
(success) or resolved as failed (failure).  In the code the completion
continuation never touches any deferred: for either outcome the deferred
registry is unchanged, while the deferred created by `render` starts (and
hence stays) pending — only `cancel` ever settles a handle. -/
theorem completion_never_settles_handle :
    (∀ (m : Nat) (s : RM) (cid : Nat) (b : Bool),
        (completeJob m s cid b).deferreds = s.deferreds) ∧
    (∀ (s : RM) (now : Nat) (doc : Document) (layer : Layer) (comp : Component)
        (cid : Nat) (s' : RM) (did : Nat),
        render s now doc layer comp cid = Except.ok (s', did) →
        (did, DeferredState.pending) ∈ s'.deferreds) := by
  constructor
  · intro m s cid b
    exact (processWorkSetAux_frame _ _).2.1
  · intro s now doc layer comp cid s' did h
    exact (render_ok_spec h).2.2.2.1

/-- C3 witness: concrete completion leaving the registry unchanged, and a
concrete successful submission whose deferred is recorded pending. -/
theorem completion_never_settles_handle_witness :
    (completeJob 2 siblingState 1 true).deferreds = siblingState.deferreds ∧
    (renderedPair.2, DeferredState.pending) ∈ renderedPair.1.deferreds :=
  ⟨completion_never_settles_handle.1 2 siblingState 1 true,
   completion_never_settles_handle.2 armedState 0 sampleDoc sampleLayer sampleComp 3
     renderedPair.1 renderedPair.2 (by rfl)⟩

/-- C4: the claim says the working count never exceeds `MAX_JOBS` and the
drain stops once that cap is reached.  The guard of `_processWorkSet`
compares the `_pending` count, not the `_working` count, against `MAX_JOBS`:
with a cap of 2, from a state with two running jobs and one queued job the
drain starts the queued job anyway (3 running — above the cap), while from a
state with two queued jobs and none running it refuses to start anything.
In states actually reachable from a fresh manager the working set is always
empty (submissions never reach `_pending`), so the numeric bound holds only
vacuously. -/
theorem drain_cap_reads_pending_count :
    (processWorkSet 2 overCapState).working.length = 3 ∧
    2 < (processWorkSet 2 overCapState).working.length ∧
    processWorkSet 2 queueAtCapState = queueAtCapState ∧
    (processWorkSet 2 queueAtCapState).started = [] ∧
    (∀ (m : Nat) (es : List Event) (w : World),
        Steps m World.fresh es w → w.rm.working = []) := by
  refine ⟨by decide, by decide, by decide, by decide, ?_⟩
  intro m es w h
  exact (steps_empty h).2.1

/-- C4 witness: the reachable-state conjunct applied to a concrete execution. -/
theorem drain_cap_reads_pending_count_witness :
    (runEvents 2 World.fresh submitOneTrace).rm.working = [] :=
  drain_cap_reads_pending_count.2.2.2.2 2 submitOneTrace _
    (Steps.cons (by decide) (Steps.cons (by decide) (Steps.nil _)))

/-- C5: submitting a component id that already has a tracked (and in this
code necessarily unsettled) entry in the work set throws the explicit
`Error` synchronously; the thrown call performs no state mutation, so no
second job is created. -/
theorem duplicate_submission_throws :
    ∀ (s : RM) (ws : Obj Job) (now : Nat) (doc : Document) (layer : Layer)
      (comp : Component) (cid : Nat),
      s.workSet = some ws → hasKey ws cid = true →
      render s now doc layer comp cid =
        Except.error (JsError.errorMessage ("Render already pending for component: %d")) := by
  intro s ws now doc layer comp cid hws hk
  unfold render
  rw [hws]
  simp [hk]

/-- C5 witness: duplicate submission of component `5` on a manager already
tracking it. -/
theorem duplicate_submission_throws_witness :
    render trackingFiveState 0 sampleDoc sampleLayer sampleComp 5 =
      Except.error (JsError.errorMessage ("Render already pending for component: %d")) :=
  duplicate_submission_throws trackingFiveState [(5, sampleJob)] 0 sampleDoc sampleLayer
    sampleComp 5 rfl (by decide)

/-- C6: the claim says `cancel` finds any tracked job and resolves its handle
as cancelled.  Evaluating the code on a concrete execution (`finish`, then a
submission of component `9`): the job is tracked — it sits in `_workSet` —
but `cancel` inspects only `_pending` and `_working`, where the id is absent,
so the `set` variable stays `undefined`, `set[componentId]` throws a
`TypeError`, and the handle of job `9` stays pending instead of being
rejected. -/
theorem cancel_misses_tracked_submission :
    Steps 2 World.fresh submitOneTrace (runEvents 2 World.fresh submitOneTrace) ∧
    hasKey (submitOneState.workSet.getD []) 9 = true ∧
    lookupKey submitOneState.pending 9 = none ∧
    lookupKey submitOneState.working 9 = none ∧
    cancel submitOneState 9 = Except.error JsError.typeError ∧
    submitOneState.deferreds = [(0, DeferredState.pending)] :=
  ⟨Steps.cons (by decide) (Steps.cons (by decide) (Steps.nil _)),
   by decide, by decide, by decide, rfl, by decide⟩

/-- C7: the debounce gate holds a single timer handle; arming while a timer
is outstanding keeps the deadline (no rearming, no countdown reset); arming
from the unarmed state schedules the drain `CHANGE_DELAY = 1000` ms from the
arming instant; and in any execution from a fresh manager a timer can only
fire — hence the drain can only be triggered — at a time at least
`CHANGE_DELAY` past the instant at which the timer was armed. -/
theorem debounce_gate_contract :
    CHANGE_DELAY = 1000 ∧
    (∀ (s : RM) (now : Nat) (doc : Document) (layer : Layer) (comp : Component)
        (cid : Nat) (s' : RM) (did : Nat) (d : Nat),
        s.changeTimer = some d →
        render s now doc layer comp cid = Except.ok (s', did) →
        s'.changeTimer = some d) ∧
    (∀ (s : RM) (now : Nat) (doc : Document) (layer : Layer) (comp : Component)
        (cid : Nat) (s' : RM) (did : Nat),
        s.changeTimer = none →
        render s now doc layer comp cid = Except.ok (s', did) →
        s'.changeTimer = some (now + CHANGE_DELAY)) ∧
    (∀ (m : Nat) (es : List Event) (w : World) (t : Nat),
        Steps m World.fresh es w →
        validEvent w (Event.timerFire t) = true →
        ∃ t0, t0 ≤ w.now ∧ t0 + CHANGE_DELAY ≤ t) := by
  refine ⟨rfl, ?_, ?_, ?_⟩
  · intro s now doc layer comp cid s' did d hd hok
    exact (render_ok_spec hok).2.2.2.2.1 d hd
  · intro s now doc layer comp cid s' did hd hok
    exact (render_ok_spec hok).2.2.2.2.2 hd
  · intro m es w t hsteps hv
    obtain ⟨d, hct, hdt⟩ := validEvent_timerFire hv
    obtain ⟨t0, ht0, hde⟩ := steps_timerBound hsteps d hct
    refine ⟨t0, ht0, ?_⟩
    rw [← hde]
    exact hdt

/-- C7 witness: after `finish` and an arming submission at time 5, the timer
may fire at 1005 and the quiet-period bound holds there; a further
submission while armed (at deadline 42) keeps the deadline 42. -/
theorem debounce_gate_contract_witness :
    (∃ t0, t0 ≤ (runEvents 2 World.fresh armAtFiveTrace).now ∧ t0 + CHANGE_DELAY ≤ 1005) ∧
    renderedArmedPair.1.changeTimer = some 42 := by
  constructor
  · exact debounce_gate_contract.2.2.2 2 armAtFiveTrace _ 1005
      (Steps.cons (by decide) (Steps.cons (by decide) (Steps.nil _))) (by decide)
  · exact debounce_gate_contract.2.1 armedState 7 sampleDoc sampleLayer sampleComp 1
      renderedArmedPair.1 renderedArmedPair.2 42 rfl (by rfl)

/-- C8: the render path of `_renderComponent` is chosen by the component
kind: for extension `"svg"` (the vector kind) the pixmap renderer of the
owning document is called directly with no bounds argument and no bounds
query is made; for any other kind the generator is first asked a bounds-only
`getPixmap` query and its bounds are passed as the exact bounds of the
pixmap render call. -/
theorem render_path_by_kind :
    (∀ (doc : Document) (layer : Layer) (comp : Component) (b : Nat),
        comp.extension = "svg" →
        renderComponentCalls doc layer comp b =
          [RendererCall.pixmapRender doc.id layer.id none]) ∧
    (∀ (doc : Document) (layer : Layer) (comp : Component) (b : Nat),
        comp.extension ≠ "svg" →
        renderComponentCalls doc layer comp b =
          [RendererCall.getPixmap doc.id layer.id true,
           RendererCall.pixmapRender doc.id layer.id (some b)]) := by
  constructor
  · intro doc layer comp b h
    unfold renderComponentCalls
    rw [if_pos h]
  · intro doc layer comp b h
    unfold renderComponentCalls
    rw [if_neg h]

/-- C8 witness: the two paths evaluated on concrete svg and png components. -/
theorem render_path_by_kind_witness :
    renderComponentCalls sampleDoc sampleLayer ⟨"svg"⟩ 17 =
      [RendererCall.pixmapRender sampleDoc.id sampleLayer.id none] ∧
    renderComponentCalls sampleDoc sampleLayer sampleComp 17 =
      [RendererCall.getPixmap sampleDoc.id sampleLayer.id true,
       RendererCall.pixmapRender sampleDoc.id sampleLayer.id (some 17)] :=
  ⟨render_path_by_kind.1 sampleDoc sampleLayer ⟨"svg"⟩ 17 rfl,
   render_path_by_kind.2 sampleDoc sampleLayer sampleComp 17 (by decide)⟩

/-- C9: the completion continuation of a started render behaves identically
for success and failure; it removes the job id from the working set (and the
drain it re-invokes cannot re-add an id that is not pending); and in the
sibling scenario — job 1 running, job 2 queued, cap 2 — completing job 1 as
a failure still removes 1 and promotes the sibling 2, whose render is begun. -/
theorem completion_cleanup_unconditional :
    (∀ (m : Nat) (s : RM) (cid : Nat),
        completeJob m s cid true = completeJob m s cid false) ∧
    (∀ (m : Nat) (s : RM) (cid : Nat) (b : Bool),
        hasKey s.pending cid = false →
        hasKey (completeJob m s cid b).working cid = false) ∧
    (completeJob 2 siblingState 1 false).working = [(2, sampleJob)] ∧
    (completeJob 2 siblingState 1 false).started = [2] ∧
    (completeJob 2 siblingState 1 false).pending = [] := by
  refine ⟨fun m s cid => rfl, ?_, by decide, by decide, by decide⟩
  intro m s cid b hp
  exact processWorkSetAux_not_working _ _ _ hp (hasKey_removeKey_self _ _)

/-- C9 witness: outcome-independence and removal evaluated concretely. -/
theorem completion_cleanup_unconditional_witness :
    completeJob 3 onePendingState 1 true = completeJob 3 onePendingState 1 false ∧
    hasKey (completeJob 2 siblingState 1 true).working 1 = false :=
  ⟨completion_cleanup_unconditional.1 3 onePendingState 1,
   completion_cleanup_unconditional.2.1 2 siblingState 1 true (by decide)⟩

/-- C10: the claim says cancelling an untracked component id has a defined
outcome (silent no-op or deliberately reported error) without dereferencing
an undefined record.  In the code, when the id is in neither `_pending` nor
`_working` the `set` variable stays `undefined` and `set[componentId]`
raises the implicit `TypeError` — an accidental crash, not a no-op and not a
deliberate report; in particular it happens on a fresh manager. -/
theorem cancel_untracked_throws_typeError :
    (∀ (s : RM) (cid : Nat),
        hasKey s.pending cid = false → hasKey s.working cid = false →
        cancel s cid = Except.error JsError.typeError) ∧
    cancel RenderManager.new 0 = Except.error JsError.typeError := by
  constructor
  · intro s cid hp hw
    exact cancel_not_found (lookupKey_eq_none hp) (lookupKey_eq_none hw)
  · rfl

/-- C10 witness: cancelling id 5 on a manager tracking only id 1 throws. -/
theorem cancel_untracked_throws_typeError_witness :
    cancel onePendingState 5 = Except.error JsError.typeError :=
  cancel_untracked_throws_typeError.1 onePendingState 5 (by decide) (by decide)
